import Mathlib

/-!
Shallow embedding of the step-wise tool-calling agent engine of
src/llama_index/agent/v1/openai.py (class OpenAIAgentStepEngine and the
module-level helpers).  Python exceptions are modelled with an explicit
error type and Except; in-place mutation of the shared conversation log
(step.memory, aliasing the task's memory) and of the step_state scratch
map is modelled by threading the state explicitly and returning it next
to the result, so that state mutated before an exception is still
visible, as it is in Python.  The LLM client, the JSON parser and the
tools themselves are external collaborators and enter as function
parameters.
-/

/-- Python exception values, as far as the embedded code distinguishes them. -/
inductive PyError where
  | valueError (msg : String)
  | keyError (key : String)
  | indexError
  | assertionError
  | typeError (msg : String)
  | notImplementedError
  | jsonError (msg : String)
  | toolError (msg : String)
deriving DecidableEq, Repr

/-- Models str(e) for an exception, used to synthesize the tool error message. -/
def PyError.toStr : PyError → String
  | .valueError m => m
  | .keyError k => k
  | .indexError => "list index out of range"
  | .assertionError => ""
  | .typeError m => m
  | .notImplementedError => ""
  | .jsonError m => m
  | .toolError m => m

/-- A parsed JSON argument object (the result of json.loads on the
directive's argument string), modelled as a string-keyed record. -/
abbrev ArgDict := List (String × String)

/-- The raw_output field of a ToolOutput: a raw success value or a captured error. -/
inductive RawOutput where
  | empty
  | val (s : String)
  | exc (e : PyError)
deriving DecidableEq, Repr

/-- llama_index.tools.ToolOutput: content, tool name, raw input, raw output. -/
structure ToolOutput where
  content : String
  tool_name : String
  raw_input : ArgDict
  raw_output : RawOutput
deriving DecidableEq, Repr

/-- str(output) on a ToolOutput returns its content string. -/
def ToolOutput.str (o : ToolOutput) : String := o.content

structure ToolMetadata where
  name : String
deriving DecidableEq, Repr

/-- A tool: metadata plus a blocking call and a non-blocking call.  A call
that raises is modelled as returning an error. -/
structure BaseTool where
  metadata : ToolMetadata
  call : ArgDict → Except PyError ToolOutput
  acall : ArgDict → Except PyError ToolOutput

/-- adapt_to_async_tool: view a tool through its async call surface. -/
def adapt_to_async_tool (tool : BaseTool) : BaseTool := tool

/-- The .function field of an OpenAI tool call object. -/
structure OpenAIFunction where
  name : Option String
  arguments : Option String
deriving DecidableEq, Repr

/-- An OpenAIToolCall directive.  is_valid_instance models the
isinstance(tool_call, get_args(OpenAIToolCall)) check. -/
structure OpenAIToolCall where
  is_valid_instance : Bool
  id : Option String
  type : String
  function : Option OpenAIFunction
deriving DecidableEq, Repr

inductive MessageRole where
  | system
  | user
  | assistant
  | tool
deriving DecidableEq, Repr

/-- A chat message; the kw_ fields model the additional_kwargs entries the
engine reads and writes (tool_calls on assistant replies, name and
tool_call_id on tool result messages). -/
structure ChatMessage where
  role : MessageRole
  content : Option String := none
  kw_tool_calls : Option (List OpenAIToolCall) := none
  kw_name : Option String := none
  kw_tool_call_id : Option String := none
deriving DecidableEq, Repr

/-- str(content) where content is Optional. -/
def pyStrOfContent : Option String → String
  | some s => s
  | none => "None"

/-- Tool-selection policy: either a plain string or the forced-selection
dict built by resolve_tool_choice. -/
inductive ToolChoice where
  | str (s : String)
  | forced (name : String)
deriving DecidableEq, Repr

/-- get_function_by_name: dict-comprehension lookup by exact metadata name
(for duplicate names the last tool wins, as in the Python dict), raising
ValueError when absent. -/
def get_function_by_name (tools : List BaseTool) (name : String) :
    Except PyError BaseTool :=
  match tools.reverse.find? (fun tool => tool.metadata.name == name) with
  | some tool => .ok tool
  | none => .error (.valueError ("Tool with name " ++ name ++ " not found"))

/-- call_tool_with_error_handling: run the tool; an exception is re-raised
when raise_error is set and otherwise converted into an error ToolOutput. -/
def call_tool_with_error_handling (tool : BaseTool) (input_dict : ArgDict)
    (error_message : Option String) (raise_error : Bool) :
    Except PyError ToolOutput :=
  match tool.call input_dict with
  | .ok out => .ok out
  | .error e =>
    if raise_error then .error e
    else
      .ok { content := error_message.getD ("Error: " ++ e.toStr)
            tool_name := tool.metadata.name
            raw_input := input_dict
            raw_output := .exc e }

/-- call_function (blocking): validate the directive fields, resolve the
tool, parse the arguments, call with error handling, and build the tool
result message. -/
def call_function (jsonOf : String → Except PyError ArgDict)
    (tools : List BaseTool) (tool_call : OpenAIToolCall) :
    Except PyError (ChatMessage × ToolOutput) := do
  let some id_ := tool_call.id | .error .assertionError
  let some function_call := tool_call.function | .error .assertionError
  let some name := function_call.name | .error .assertionError
  let some arguments_str := function_call.arguments | .error .assertionError
  let tool ← get_function_by_name tools name
  let argument_dict ← jsonOf arguments_str
  let output ← call_tool_with_error_handling tool argument_dict none false
  pure
    ({ role := .tool
       content := some output.str
       kw_name := some name
       kw_tool_call_id := some id_ }, output)

/-- acall_function (non-blocking): same validation, resolution and parse,
but the tool's async call is invoked directly, with no error handling. -/
def acall_function (jsonOf : String → Except PyError ArgDict)
    (tools : List BaseTool) (tool_call : OpenAIToolCall) :
    Except PyError (ChatMessage × ToolOutput) := do
  let some id_ := tool_call.id | .error .assertionError
  let some function_call := tool_call.function | .error .assertionError
  let some name := function_call.name | .error .assertionError
  let some arguments_str := function_call.arguments | .error .assertionError
  let tool ← get_function_by_name tools name
  let async_tool := adapt_to_async_tool tool
  let argument_dict ← jsonOf arguments_str
  let output ← async_tool.acall argument_dict
  pure
    ({ role := .tool
       content := some output.str
       kw_name := some name
       kw_tool_call_id := some id_ }, output)

/-- resolve_tool_choice: a function-name string other than none and auto
becomes the forced-selection dict; anything else passes through. -/
def resolve_tool_choice (tool_choice : ToolChoice) : ToolChoice :=
  match tool_choice with
  | .str s => if s != "none" && s != "auto" then .forced s else .str s
  | .forced n => .forced n

/-- The step engine configuration (OpenAIAgentStepEngine.__init__ with the
fixed-tool-list configuration of _get_tools; the retriever-backed variant
is an external collaborator and is not needed by the claims). -/
structure OpenAIAgentStepEngine where
  tools : List BaseTool
  prefix_messages : List ChatMessage
  verbose : Bool
  max_function_calls : Nat

/-- DEFAULT_MAX_FUNCTION_CALLS. -/
def DEFAULT_MAX_FUNCTION_CALLS : Nat := 5

/-- Modelled from the spec: StepState, the mutable scratch map of a
TaskStep, holding the accumulated tool outputs ("sources") and the count
of tool invocations performed so far. -/
structure StepStateRec where
  sources : List ToolOutput
  n_function_calls : Nat
deriving DecidableEq, Repr

/-- The response object assembled by _process_message
(AgentChatResponse: rendered response text plus the sources captured from
the step state at assembly time). -/
structure AgentChatResponse where
  response : String
  sources : List ToolOutput
deriving DecidableEq, Repr

/-- A step's input: the original task input text, or the prior step's
produced response object. -/
inductive StepInput where
  | text (s : String)
  | response (r : AgentChatResponse)
deriving DecidableEq, Repr

/-- Modelled from the spec: TaskStep (defined in
llama_index/agent/v1/schema.py, which is not under src/).  Per the spec a
TaskStep carries a task id, a unique step id, an input, a reference to the
task's shared conversation log, and a mutable StepState scratch map.  The
scratch map is modelled as an Option: some for a state initialized with
both entries (as initialize_step builds it) and none for a step
constructed without step_state, whose map is empty so that reading either
entry is a key lookup error.  The shared conversation log is threaded
explicitly through the engine functions instead of being stored here. -/
structure TaskStep where
  task_id : String
  step_id : String
  input : StepInput
  step_state : Option StepStateRec := none
deriving DecidableEq, Repr

/-- Modelled from the spec: Task (defined in
llama_index/agent/v1/schema.py, not under src/): an identifier, the
original input, and ownership of the conversation log shared across all
the task's steps (the log itself is threaded explicitly).  Named
AgentTask here because Task is already taken in Lean. -/
structure AgentTask where
  task_id : String
  input : String
deriving DecidableEq, Repr

/-- Modelled from the spec: TaskStepOutput (defined in
llama_index/agent/v1/schema.py, not under src/): the produced response,
the step it resulted from, the terminal flag, and the follow-up steps. -/
structure TaskStepOutput where
  output : AgentChatResponse
  task_step : TaskStep
  is_last : Bool
  next_steps : List TaskStep
deriving DecidableEq, Repr

/-- The keyword payload assembled by _get_llm_chat_kwargs for the model
call: the full message list, and, when tools are supplied, their
descriptions and the resolved tool-selection policy. -/
structure LLMChatKwargs where
  messages : List ChatMessage
  tools : Option (List ToolMetadata) := none
  tool_choice : Option ToolChoice := none
deriving DecidableEq, Repr

/-- get_all_messages: prefix messages followed by the step's memory. -/
def OpenAIAgentStepEngine.get_all_messages (e : OpenAIAgentStepEngine)
    (mem : List ChatMessage) : List ChatMessage :=
  e.prefix_messages ++ mem

/-- get_latest_tool_calls: the tool_calls entry of the last message in the
step's memory (IndexError on an empty memory, as in Python). -/
def get_latest_tool_calls (mem : List ChatMessage) :
    Except PyError (Option (List OpenAIToolCall)) :=
  match mem.getLast? with
  | some m => .ok m.kw_tool_calls
  | none => .error .indexError

/-- _get_llm_chat_kwargs: always the messages; tool descriptions and the
resolved tool choice only when the tool list is non-empty. -/
def OpenAIAgentStepEngine._get_llm_chat_kwargs (e : OpenAIAgentStepEngine)
    (mem : List ChatMessage) (openai_tools : List ToolMetadata)
    (tool_choice : ToolChoice) : LLMChatKwargs :=
  if openai_tools.isEmpty then
    { messages := e.get_all_messages mem }
  else
    { messages := e.get_all_messages mem
      tools := some openai_tools
      tool_choice := some (resolve_tool_choice tool_choice) }

/-- _process_message: append the model's reply to the memory, then build
the AgentChatResponse from the reply text and the step state's sources
(a key lookup error when the scratch map is empty — note the append
happens first, as in the source). -/
def OpenAIAgentStepEngine._process_message (e : OpenAIAgentStepEngine)
    (step_state : Option StepStateRec) (mem : List ChatMessage)
    (ai_message : ChatMessage) :
    List ChatMessage × Except PyError AgentChatResponse :=
  let mem' := mem ++ [ai_message]
  match step_state with
  | some st =>
    (mem', .ok { response := pyStrOfContent ai_message.content
                 sources := st.sources })
  | none => (mem', .error (.keyError "sources"))

/-- _should_continue: stop once the invocation counter exceeds the
configured maximum, stop on a falsy (absent or empty) tool-call list,
otherwise continue. -/
def OpenAIAgentStepEngine._should_continue (e : OpenAIAgentStepEngine)
    (tool_calls : Option (List OpenAIToolCall)) (n_function_calls : Nat) :
    Bool :=
  if n_function_calls > e.max_function_calls then false
  else if (match tool_calls with
           | none => true
           | some l => l.isEmpty) then false
  else true

/-- get_tools (fixed-list configuration): ignore the input, return the
configured tools. -/
def OpenAIAgentStepEngine.get_tools (e : OpenAIAgentStepEngine)
    (_input : String) : List BaseTool :=
  e.tools

/-- initialize_step: a fresh step for the task, with zero sources and a
zero invocation counter (the step id is external entropy, passed in). -/
def OpenAIAgentStepEngine.initialize_step (e : OpenAIAgentStepEngine)
    (task : AgentTask) (fresh_step_id : String) : TaskStep :=
  { task_id := task.task_id
    step_id := fresh_step_id
    input := .text task.input
    step_state := some { sources := [], n_function_calls := 0 } }

/-- _call_function (method): the instrumentation payload resolves the tool
by name first (so an unresolvable name raises before anything is
appended), then call_function runs, then the tool output is appended to
sources and the tool message to memory. -/
def OpenAIAgentStepEngine._call_function (e : OpenAIAgentStepEngine)
    (jsonOf : String → Except PyError ArgDict) (tools : List BaseTool)
    (tool_call : OpenAIToolCall) (mem : List ChatMessage)
    (sources : List ToolOutput) :
    Except PyError (List ChatMessage × List ToolOutput) := do
  let some function_call := tool_call.function | .error .assertionError
  let some name := function_call.name | .error .assertionError
  let some _arguments := function_call.arguments | .error .assertionError
  let _tool ← get_function_by_name tools name
  let (function_message, tool_output) ← call_function jsonOf tools tool_call
  pure (mem ++ [function_message], sources ++ [tool_output])

/-- _acall_function (method): as _call_function, with the unguarded async
tool call. -/
def OpenAIAgentStepEngine._acall_function (e : OpenAIAgentStepEngine)
    (jsonOf : String → Except PyError ArgDict) (tools : List BaseTool)
    (tool_call : OpenAIToolCall) (mem : List ChatMessage)
    (sources : List ToolOutput) :
    Except PyError (List ChatMessage × List ToolOutput) := do
  let some function_call := tool_call.function | .error .assertionError
  let some name := function_call.name | .error .assertionError
  let some _arguments := function_call.arguments | .error .assertionError
  let _tool ← get_function_by_name tools name
  let (function_message, tool_output) ← acall_function jsonOf tools tool_call
  pure (mem ++ [function_message], sources ++ [tool_output])

/-- The mutable state the directive loop of _run_step threads: the shared
conversation log, the step's sources, the invocation counter, and the
local tool-selection policy. -/
structure LoopState where
  mem : List ChatMessage
  sources : List ToolOutput
  n_function_calls : Nat
  tool_choice : ToolChoice
deriving Repr

/-- The membership test tool_choice in a pair of plain strings, used by the
reset guard (a forced-selection dict is never a member). -/
def ToolChoice.is_auto_or_none : ToolChoice → Bool
  | .str s => s == "auto" || s == "none"
  | .forced _ => false

/-- The directive loop of _run_step: for each tool call in order, validate
the directive object and its kind, run _call_function, reset a pinned
tool choice to auto, and increment the counter.  An exception stops the
loop; the state mutated so far is kept next to the error, since Python
mutations persist across a raise. -/
def OpenAIAgentStepEngine.exec_tool_calls (e : OpenAIAgentStepEngine)
    (jsonOf : String → Except PyError ArgDict) (tools : List BaseTool) :
    List OpenAIToolCall → LoopState → LoopState × Option PyError
  | [], s => (s, none)
  | tool_call :: rest, s =>
    if !tool_call.is_valid_instance then
      (s, some (.valueError "Invalid tool_call object"))
    else if tool_call.type != "function" then
      (s, some (.valueError "Invalid tool type. Unsupported by OpenAI"))
    else
      match e._call_function jsonOf tools tool_call s.mem s.sources with
      | .error err => (s, some err)
      | .ok (mem', sources') =>
        let tool_choice' :=
          if !s.tool_choice.is_auto_or_none then ToolChoice.str "auto"
          else s.tool_choice
        e.exec_tool_calls jsonOf tools rest
          { mem := mem'
            sources := sources'
            n_function_calls := s.n_function_calls + 1
            tool_choice := tool_choice' }

/-- The directive loop of _arun_step: identical to exec_tool_calls except
that each directive runs through _acall_function. -/
def OpenAIAgentStepEngine.aexec_tool_calls (e : OpenAIAgentStepEngine)
    (jsonOf : String → Except PyError ArgDict) (tools : List BaseTool) :
    List OpenAIToolCall → LoopState → LoopState × Option PyError
  | [], s => (s, none)
  | tool_call :: rest, s =>
    if !tool_call.is_valid_instance then
      (s, some (.valueError "Invalid tool_call object"))
    else if tool_call.type != "function" then
      (s, some (.valueError "Invalid tool type. Unsupported by OpenAI"))
    else
      match e._acall_function jsonOf tools tool_call s.mem s.sources with
      | .error err => (s, some err)
      | .ok (mem', sources') =>
        let tool_choice' :=
          if !s.tool_choice.is_auto_or_none then ToolChoice.str "auto"
          else s.tool_choice
        e.aexec_tool_calls jsonOf tools rest
          { mem := mem'
            sources := sources'
            n_function_calls := s.n_function_calls + 1
            tool_choice := tool_choice' }

/-- What one call of _run_step leaves behind: the conversation log, the
step's scratch state, and either the TaskStepOutput or the exception that
escaped (with the mutations made before it persisting). -/
structure StepExec where
  mem : List ChatMessage
  step_state : Option StepStateRec
  result : Except PyError TaskStepOutput
deriving Repr

/-- _run_step in the direct (WAIT) response mode: resolve tools, build the
model-call payload, obtain and append the model reply, check the
continuation predicate, run the directive loop when continuing, and emit
the TaskStepOutput with one follow-up step (constructed without
step_state, as in the source) or none.  The model client enters as the
function llm from payload to reply message; the follow-up step's id is
external entropy, passed in. -/
def OpenAIAgentStepEngine._run_step (e : OpenAIAgentStepEngine)
    (jsonOf : String → Except PyError ArgDict)
    (llm : LLMChatKwargs → ChatMessage) (fresh_step_id : String)
    (step : TaskStep) (task : AgentTask) (tool_choice : ToolChoice)
    (mem : List ChatMessage) : StepExec :=
  let tools := e.get_tools task.input
  let openai_tools := tools.map (fun tool => tool.metadata)
  let llm_chat_kwargs := e._get_llm_chat_kwargs mem openai_tools tool_choice
  let ai_message := llm llm_chat_kwargs
  match e._process_message step.step_state mem ai_message with
  | (mem1, .error err) => { mem := mem1, step_state := step.step_state, result := .error err }
  | (mem1, .ok agent_chat_response) =>
    match get_latest_tool_calls mem1 with
    | .error err => { mem := mem1, step_state := step.step_state, result := .error err }
    | .ok latest_tool_calls =>
      match step.step_state with
      | none => { mem := mem1, step_state := none, result := .error (.keyError "n_function_calls") }
      | some st =>
        if !(e._should_continue latest_tool_calls st.n_function_calls) then
          { mem := mem1
            step_state := some st
            result := .ok { output := agent_chat_response
                            task_step := step
                            is_last := true
                            next_steps := [] } }
        else
          match latest_tool_calls with
          | none =>
            { mem := mem1, step_state := some st
              result := .error (.typeError "NoneType is not iterable") }
          | some tool_calls =>
            let (s', err?) := e.exec_tool_calls jsonOf tools tool_calls
              { mem := mem1
                sources := st.sources
                n_function_calls := st.n_function_calls
                tool_choice := tool_choice }
            let st' : StepStateRec :=
              { sources := s'.sources, n_function_calls := s'.n_function_calls }
            match err? with
            | some err => { mem := s'.mem, step_state := some st', result := .error err }
            | none =>
              let new_steps : List TaskStep :=
                [{ task_id := step.task_id
                   step_id := fresh_step_id
                   input := .response agent_chat_response
                   step_state := none }]
              { mem := s'.mem
                step_state := some st'
                result := .ok { output := agent_chat_response
                                task_step := { step with step_state := some st' }
                                is_last := false
                                next_steps := new_steps } }

/-- _arun_step in the direct (WAIT) response mode: identical to _run_step
except that the directive loop runs through the async tool calls. -/
def OpenAIAgentStepEngine._arun_step (e : OpenAIAgentStepEngine)
    (jsonOf : String → Except PyError ArgDict)
    (llm : LLMChatKwargs → ChatMessage) (fresh_step_id : String)
    (step : TaskStep) (task : AgentTask) (tool_choice : ToolChoice)
    (mem : List ChatMessage) : StepExec :=
  let tools := e.get_tools task.input
  let openai_tools := tools.map (fun tool => tool.metadata)
  let llm_chat_kwargs := e._get_llm_chat_kwargs mem openai_tools tool_choice
  let ai_message := llm llm_chat_kwargs
  match e._process_message step.step_state mem ai_message with
  | (mem1, .error err) => { mem := mem1, step_state := step.step_state, result := .error err }
  | (mem1, .ok agent_chat_response) =>
    match get_latest_tool_calls mem1 with
    | .error err => { mem := mem1, step_state := step.step_state, result := .error err }
    | .ok latest_tool_calls =>
      match step.step_state with
      | none => { mem := mem1, step_state := none, result := .error (.keyError "n_function_calls") }
      | some st =>
        if !(e._should_continue latest_tool_calls st.n_function_calls) then
          { mem := mem1
            step_state := some st
            result := .ok { output := agent_chat_response
                            task_step := step
                            is_last := true
                            next_steps := [] } }
        else
          match latest_tool_calls with
          | none =>
            { mem := mem1, step_state := some st
              result := .error (.typeError "NoneType is not iterable") }
          | some tool_calls =>
            let (s', err?) := e.aexec_tool_calls jsonOf tools tool_calls
              { mem := mem1
                sources := st.sources
                n_function_calls := st.n_function_calls
                tool_choice := tool_choice }
            let st' : StepStateRec :=
              { sources := s'.sources, n_function_calls := s'.n_function_calls }
            match err? with
            | some err => { mem := s'.mem, step_state := some st', result := .error err }
            | none =>
              let new_steps : List TaskStep :=
                [{ task_id := step.task_id
                   step_id := fresh_step_id
                   input := .response agent_chat_response
                   step_state := none }]
              { mem := s'.mem
                step_state := some st'
                result := .ok { output := agent_chat_response
                                task_step := { step with step_state := some st' }
                                is_last := false
                                next_steps := new_steps } }

/-- run_step (public, blocking): tool_choice defaults to auto when the
caller passes none, then _run_step in WAIT mode. -/
def OpenAIAgentStepEngine.run_step (e : OpenAIAgentStepEngine)
    (jsonOf : String → Except PyError ArgDict)
    (llm : LLMChatKwargs → ChatMessage) (fresh_step_id : String)
    (step : TaskStep) (task : AgentTask)
    (tool_choice_kwarg : Option ToolChoice) (mem : List ChatMessage) :
    StepExec :=
  e._run_step jsonOf llm fresh_step_id step task
    (tool_choice_kwarg.getD (.str "auto")) mem

/-- arun_step (public, non-blocking): tool_choice defaults to auto, then
_arun_step in WAIT mode. -/
def OpenAIAgentStepEngine.arun_step (e : OpenAIAgentStepEngine)
    (jsonOf : String → Except PyError ArgDict)
    (llm : LLMChatKwargs → ChatMessage) (fresh_step_id : String)
    (step : TaskStep) (task : AgentTask)
    (tool_choice_kwarg : Option ToolChoice) (mem : List ChatMessage) :
    StepExec :=
  e._arun_step jsonOf llm fresh_step_id step task
    (tool_choice_kwarg.getD (.str "auto")) mem

/-- stream_step (public, blocking streaming): raises NotImplementedError. -/
def OpenAIAgentStepEngine.stream_step (e : OpenAIAgentStepEngine)
    (step : TaskStep) (task : AgentTask) : Except PyError TaskStepOutput :=
  .error .notImplementedError

/-- astream_step (public, async streaming): raises NotImplementedError. -/
def OpenAIAgentStepEngine.astream_step (e : OpenAIAgentStepEngine)
    (step : TaskStep) (task : AgentTask) : Except PyError TaskStepOutput :=
  .error .notImplementedError

/-- Whether an Except result is a success. -/
def exceptIsOk {ε α : Type} : Except ε α → Bool
  | .ok _ => true
  | .error _ => false

/-- A trivial JSON parser stand-in for concrete scenarios: every argument
string parses to the empty record. -/
def sampleJson : String → Except PyError ArgDict := fun _ => .ok []

/-- A concrete tool named add whose call always succeeds with content 4. -/
def addTool : BaseTool :=
  { metadata := { name := "add" }
    call := fun d =>
      .ok { content := "4", tool_name := "add", raw_input := d, raw_output := .val "4" }
    acall := fun d =>
      .ok { content := "4", tool_name := "add", raw_input := d, raw_output := .val "4" } }

/-- A concrete tool named boom whose execution always raises. -/
def boomTool : BaseTool :=
  { metadata := { name := "boom" }
    call := fun _ => .error (.toolError "boom failed")
    acall := fun _ => .error (.toolError "boom failed") }

/-- A well-formed function directive for the add tool. -/
def addCall (i : String) : OpenAIToolCall :=
  { is_valid_instance := true
    id := some i
    type := "function"
    function := some { name := some "add", arguments := some "\x7b\x7d" } }

/-- A well-formed function directive for the boom tool. -/
def boomCall : OpenAIToolCall :=
  { is_valid_instance := true
    id := some "c2"
    type := "function"
    function := some { name := some "boom", arguments := some "\x7b\x7d" } }

/-- A directive whose kind is not function. -/
def badKindCall : OpenAIToolCall :=
  { is_valid_instance := true
    id := some "c9"
    type := "retrieval"
    function := some { name := some "add", arguments := some "\x7b\x7d" } }

/-- A well-formed function directive naming a tool that no engine below has. -/
def unresolvedCall : OpenAIToolCall :=
  { is_valid_instance := true
    id := some "c7"
    type := "function"
    function := some { name := some "mult", arguments := some "\x7b\x7d" } }

/-- An assistant reply carrying the given directives. -/
def replyWith (tcs : Option (List OpenAIToolCall)) : ChatMessage :=
  { role := .assistant, content := some "reply", kw_tool_calls := tcs }

/-- A model client that always answers with the same reply message. -/
def llmOf (m : ChatMessage) : LLMChatKwargs → ChatMessage := fun _ => m

/-- A concrete engine with the add and boom tools and the default cap. -/
def sampleEngine : OpenAIAgentStepEngine :=
  { tools := [addTool, boomTool]
    prefix_messages := []
    verbose := false
    max_function_calls := DEFAULT_MAX_FUNCTION_CALLS }

/-- A concrete engine with only the add tool and a cap of one invocation. -/
def engineMax1 : OpenAIAgentStepEngine :=
  { tools := [addTool]
    prefix_messages := []
    verbose := false
    max_function_calls := 1 }

/-- A concrete task. -/
def sampleTask : AgentTask := { task_id := "t1", input := "What is 2+2?" }


/-- The reply message a WAIT-mode step obtains from the model, as an
abbreviation for theorem statements (definitionally the ai_message of
_run_step and _arun_step). -/
def OpenAIAgentStepEngine.step_reply (e : OpenAIAgentStepEngine)
    (llm : LLMChatKwargs → ChatMessage) (task : AgentTask)
    (tool_choice : ToolChoice) (mem : List ChatMessage) : ChatMessage :=
  llm (e._get_llm_chat_kwargs mem
    ((e.get_tools task.input).map (fun tool => tool.metadata)) tool_choice)

lemma get_function_by_name_mem {tools : List BaseTool} {nm : String}
    {t : BaseTool} (h : get_function_by_name tools nm = .ok t) :
    t ∈ tools := by
  unfold get_function_by_name at h
  cases hfind : tools.reverse.find? (fun tool => tool.metadata.name == nm) with
  | none => rw [hfind] at h; cases h
  | some tool =>
    rw [hfind] at h
    cases h
    exact List.mem_reverse.mp (List.mem_of_find?_eq_some hfind)

lemma call_function_ok_shape {jsonOf : String → Except PyError ArgDict}
    {tools : List BaseTool} {tc : OpenAIToolCall} {fm : ChatMessage}
    {out : ToolOutput}
    (h : call_function jsonOf tools tc = .ok (fm, out)) :
    fm.role = .tool ∧ fm.kw_tool_call_id = tc.id ∧
      fm.content = some out.content := by
  unfold call_function at h
  simp only [bind, Except.bind, pure, Except.pure] at h
  repeat' split at h
  all_goals
    first
    | exact Except.noConfusion h
    | (simp only [Except.ok.injEq, Prod.mk.injEq] at h
       obtain ⟨h1, h2⟩ := h
       subst h1 h2
       simp_all [ToolOutput.str])

lemma acall_function_ok_shape {jsonOf : String → Except PyError ArgDict}
    {tools : List BaseTool} {tc : OpenAIToolCall} {fm : ChatMessage}
    {out : ToolOutput}
    (h : acall_function jsonOf tools tc = .ok (fm, out)) :
    fm.role = .tool ∧ fm.kw_tool_call_id = tc.id ∧
      fm.content = some out.content := by
  unfold acall_function at h
  simp only [bind, Except.bind, pure, Except.pure] at h
  repeat' split at h
  all_goals
    first
    | exact Except.noConfusion h
    | (simp only [Except.ok.injEq, Prod.mk.injEq] at h
       obtain ⟨h1, h2⟩ := h
       subst h1 h2
       simp_all [ToolOutput.str])

lemma call_function_m_ok_shape {e : OpenAIAgentStepEngine}
    {jsonOf : String → Except PyError ArgDict} {tools : List BaseTool}
    {tc : OpenAIToolCall} {mem : List ChatMessage}
    {sources : List ToolOutput} {r : List ChatMessage × List ToolOutput}
    (h : e._call_function jsonOf tools tc mem sources = .ok r) :
    ∃ fm out, r = (mem ++ [fm], sources ++ [out]) ∧
      fm.role = .tool ∧ fm.kw_tool_call_id = tc.id := by
  unfold OpenAIAgentStepEngine._call_function at h
  simp only [bind, Except.bind] at h
  cases hfc : tc.function with
  | none => simp [hfc] at h
  | some fc =>
    simp only [hfc] at h
    cases hnm : fc.name with
    | none => simp [hnm] at h
    | some nm =>
      simp only [hnm] at h
      cases hargs : fc.arguments with
      | none => simp [hargs] at h
      | some args =>
        simp only [hargs] at h
        cases hlook : get_function_by_name tools nm with
        | error err => simp [hlook] at h
        | ok tool =>
          simp only [hlook] at h
          cases hcf : call_function jsonOf tools tc with
          | error err => simp [hcf] at h
          | ok p =>
            obtain ⟨fm, out⟩ := p
            simp only [hcf, pure, Except.pure, Except.ok.injEq] at h
            obtain ⟨hrole, hkid, _⟩ := call_function_ok_shape hcf
            exact ⟨fm, out, h.symm, hrole, hkid⟩

lemma acall_function_m_ok_shape {e : OpenAIAgentStepEngine}
    {jsonOf : String → Except PyError ArgDict} {tools : List BaseTool}
    {tc : OpenAIToolCall} {mem : List ChatMessage}
    {sources : List ToolOutput} {r : List ChatMessage × List ToolOutput}
    (h : e._acall_function jsonOf tools tc mem sources = .ok r) :
    ∃ fm out, r = (mem ++ [fm], sources ++ [out]) ∧
      fm.role = .tool ∧ fm.kw_tool_call_id = tc.id := by
  unfold OpenAIAgentStepEngine._acall_function at h
  simp only [bind, Except.bind] at h
  cases hfc : tc.function with
  | none => simp [hfc] at h
  | some fc =>
    simp only [hfc] at h
    cases hnm : fc.name with
    | none => simp [hnm] at h
    | some nm =>
      simp only [hnm] at h
      cases hargs : fc.arguments with
      | none => simp [hargs] at h
      | some args =>
        simp only [hargs] at h
        cases hlook : get_function_by_name tools nm with
        | error err => simp [hlook] at h
        | ok tool =>
          simp only [hlook] at h
          cases hcf : acall_function jsonOf tools tc with
          | error err => simp [hcf] at h
          | ok p =>
            obtain ⟨fm, out⟩ := p
            simp only [hcf, pure, Except.pure, Except.ok.injEq] at h
            obtain ⟨hrole, hkid, _⟩ := acall_function_ok_shape hcf
            exact ⟨fm, out, h.symm, hrole, hkid⟩

lemma exec_n_mono (e : OpenAIAgentStepEngine)
    (jsonOf : String → Except PyError ArgDict) (tools : List BaseTool)
    (tcs : List OpenAIToolCall) (s : LoopState) :
    s.n_function_calls ≤
      ((e.exec_tool_calls jsonOf tools tcs s).1).n_function_calls := by
  induction tcs generalizing s with
  | nil => simp [OpenAIAgentStepEngine.exec_tool_calls]
  | cons tc rest ih =>
    simp only [OpenAIAgentStepEngine.exec_tool_calls]
    split
    · exact le_refl _
    · split
      · exact le_refl _
      · split
        · exact le_refl _
        · next mem' sources' hcall =>
          refine Nat.le_trans (Nat.le_succ _) ?_
          exact ih
            { mem := mem', sources := sources'
              n_function_calls := s.n_function_calls + 1
              tool_choice :=
                if (!s.tool_choice.is_auto_or_none) = true then
                  ToolChoice.str "auto"
                else s.tool_choice }

lemma exec_ok_counts (e : OpenAIAgentStepEngine)
    (jsonOf : String → Except PyError ArgDict) (tools : List BaseTool)
    (tcs : List OpenAIToolCall) (s s' : LoopState)
    (h : e.exec_tool_calls jsonOf tools tcs s = (s', none)) :
    s'.n_function_calls = s.n_function_calls + tcs.length ∧
      s'.sources.length = s.sources.length + tcs.length ∧
      s'.mem.length = s.mem.length + tcs.length := by
  induction tcs generalizing s with
  | nil =>
    simp only [OpenAIAgentStepEngine.exec_tool_calls, Prod.mk.injEq] at h
    obtain ⟨h1, _⟩ := h
    subst h1
    simp
  | cons tc rest ih =>
    simp only [OpenAIAgentStepEngine.exec_tool_calls] at h
    split at h
    · simp at h
    · split at h
      · simp at h
      · split at h
        · simp at h
        · next mem' sources' hcall =>
          obtain ⟨fm, out, hr, _, _⟩ := call_function_m_ok_shape hcall
          obtain ⟨hm, hs⟩ := Prod.mk.injEq .. ▸ hr
          obtain ⟨ihn, ihs, ihm⟩ := ih _ h
          subst hm hs
          refine ⟨?_, ?_, ?_⟩ <;> simp_all <;> omega

lemma exec_append (e : OpenAIAgentStepEngine)
    (jsonOf : String → Except PyError ArgDict) (tools : List BaseTool)
    (pre rest : List OpenAIToolCall) (s s₁ : LoopState)
    (h : e.exec_tool_calls jsonOf tools pre s = (s₁, none)) :
    e.exec_tool_calls jsonOf tools (pre ++ rest) s =
      e.exec_tool_calls jsonOf tools rest s₁ := by
  induction pre generalizing s with
  | nil =>
    simp only [OpenAIAgentStepEngine.exec_tool_calls, Prod.mk.injEq] at h
    obtain ⟨h1, _⟩ := h
    subst h1
    simp
  | cons tc pre' ih =>
    simp only [OpenAIAgentStepEngine.exec_tool_calls, List.cons_append] at h ⊢
    by_cases h1 : (!tc.is_valid_instance) = true
    · rw [if_pos h1] at h
      simp at h
    · rw [if_neg h1] at h ⊢
      by_cases h2 : (tc.type != "function") = true
      · rw [if_pos h2] at h
        simp at h
      · rw [if_neg h2] at h ⊢
        cases hcall : e._call_function jsonOf tools tc s.mem s.sources with
        | error err =>
          rw [hcall] at h
          simp at h
        | ok p =>
          obtain ⟨mem', sources'⟩ := p
          simp only [hcall] at h ⊢
          exact ih _ h

lemma exec_choice_auto (e : OpenAIAgentStepEngine)
    (jsonOf : String → Except PyError ArgDict) (tools : List BaseTool)
    (tcs : List OpenAIToolCall) (s : LoopState)
    (h : s.tool_choice = .str "auto") :
    ((e.exec_tool_calls jsonOf tools tcs s).1).tool_choice = .str "auto" := by
  induction tcs generalizing s with
  | nil => simpa [OpenAIAgentStepEngine.exec_tool_calls] using h
  | cons tc rest ih =>
    simp only [OpenAIAgentStepEngine.exec_tool_calls]
    split
    · exact h
    · split
      · exact h
      · split
        · exact h
        · apply ih
          simp [h, ToolChoice.is_auto_or_none]

lemma exec_pinned_resets (e : OpenAIAgentStepEngine)
    (jsonOf : String → Except PyError ArgDict) (tools : List BaseTool)
    (tcs : List OpenAIToolCall) (s s' : LoopState)
    (hpin : s.tool_choice.is_auto_or_none = false) (hne : tcs ≠ [])
    (h : e.exec_tool_calls jsonOf tools tcs s = (s', none)) :
    s'.tool_choice = .str "auto" := by
  cases tcs with
  | nil => exact absurd rfl hne
  | cons tc rest =>
    simp only [OpenAIAgentStepEngine.exec_tool_calls] at h
    split at h
    · simp at h
    · split at h
      · simp at h
      · split at h
        · simp at h
        · next mem' sources' hcall =>
          have hcond : (!s.tool_choice.is_auto_or_none) = true := by
            simp [hpin]
          rw [if_pos hcond] at h
          have hauto := exec_choice_auto e jsonOf tools rest
            { mem := mem', sources := sources'
              n_function_calls := s.n_function_calls + 1
              tool_choice := ToolChoice.str "auto" } rfl
          rw [h] at hauto
          exact hauto

lemma exec_mem_shape (e : OpenAIAgentStepEngine)
    (jsonOf : String → Except PyError ArgDict) (tools : List BaseTool)
    (tcs : List OpenAIToolCall) (s : LoopState) :
    ∃ tms : List ChatMessage,
      ((e.exec_tool_calls jsonOf tools tcs s).1).mem = s.mem ++ tms ∧
      tms.length ≤ tcs.length ∧
      ∀ i m, tms.get? i = some m →
        m.role = .tool ∧
          ∃ d, tcs.get? i = some d ∧ m.kw_tool_call_id = d.id := by
  induction tcs generalizing s with
  | nil =>
    refine ⟨[], by simp [OpenAIAgentStepEngine.exec_tool_calls], by simp, ?_⟩
    intro i m him
    simp at him
  | cons tc rest ih =>
    simp only [OpenAIAgentStepEngine.exec_tool_calls]
    split
    · exact ⟨[], by simp, by simp, fun i m him => by simp at him⟩
    · split
      · exact ⟨[], by simp, by simp, fun i m him => by simp at him⟩
      · split
        · exact ⟨[], by simp, by simp, fun i m him => by simp at him⟩
        · next mem' sources' hcall =>
          obtain ⟨fm, out, hr, hrole, hkid⟩ := call_function_m_ok_shape hcall
          obtain ⟨hm, hs⟩ := Prod.mk.injEq .. ▸ hr
          obtain ⟨tms', h1, h2, h3⟩ := ih
            { mem := mem', sources := sources'
              n_function_calls := s.n_function_calls + 1
              tool_choice :=
                if (!s.tool_choice.is_auto_or_none) = true then
                  ToolChoice.str "auto"
                else s.tool_choice }
          refine ⟨fm :: tms', ?_, by simpa using Nat.succ_le_succ h2, ?_⟩
          · rw [h1]
            simp only [hm]
            simp
          · intro i m him
            cases i with
            | zero =>
              simp only [List.get?_cons_zero, Option.some.injEq] at him
              subst him
              exact ⟨hrole, tc, rfl, hkid⟩
            | succ n =>
              simp only [List.get?_cons_succ] at him
              obtain ⟨hrole', d, hd, hk⟩ := h3 n m him
              exact ⟨hrole', d, by simpa using hd, hk⟩

lemma acall_function_eq_call_function
    {jsonOf : String → Except PyError ArgDict} {tools : List BaseTool}
    (h : ∀ t ∈ tools, ∀ d, t.acall d = t.call d ∧
      exceptIsOk (t.call d) = true)
    (tc : OpenAIToolCall) :
    acall_function jsonOf tools tc = call_function jsonOf tools tc := by
  unfold acall_function call_function
  cases hid : tc.id with
  | none => simp
  | some id_ =>
    simp only
    cases hfc : tc.function with
    | none => simp
    | some fc =>
      simp only
      cases hnm : fc.name with
      | none => simp
      | some nm =>
        simp only
        cases hargs : fc.arguments with
        | none => simp
        | some args =>
          simp only [bind, Except.bind]
          cases hlook : get_function_by_name tools nm with
          | error err => simp
          | ok tool =>
            simp only
            have htool := get_function_by_name_mem hlook
            cases hjson : jsonOf args with
            | error err => simp
            | ok d =>
              simp only
              obtain ⟨hac, hok⟩ := h tool htool d
              cases hc : tool.call d with
              | error err => simp [exceptIsOk, hc] at hok
              | ok out =>
                unfold adapt_to_async_tool
                rw [hac, hc]
                unfold call_tool_with_error_handling
                rw [hc]

lemma acall_function_m_eq {e : OpenAIAgentStepEngine}
    {jsonOf : String → Except PyError ArgDict} {tools : List BaseTool}
    (h : ∀ t ∈ tools, ∀ d, t.acall d = t.call d ∧
      exceptIsOk (t.call d) = true)
    (tc : OpenAIToolCall) (mem : List ChatMessage)
    (sources : List ToolOutput) :
    e._acall_function jsonOf tools tc mem sources =
      e._call_function jsonOf tools tc mem sources := by
  unfold OpenAIAgentStepEngine._acall_function
    OpenAIAgentStepEngine._call_function
  rw [acall_function_eq_call_function h]

lemma aexec_eq_exec {e : OpenAIAgentStepEngine}
    {jsonOf : String → Except PyError ArgDict} {tools : List BaseTool}
    (h : ∀ t ∈ tools, ∀ d, t.acall d = t.call d ∧
      exceptIsOk (t.call d) = true)
    (tcs : List OpenAIToolCall) (s : LoopState) :
    e.aexec_tool_calls jsonOf tools tcs s =
      e.exec_tool_calls jsonOf tools tcs s := by
  induction tcs generalizing s with
  | nil => rfl
  | cons tc rest ih =>
    simp only [OpenAIAgentStepEngine.aexec_tool_calls,
      OpenAIAgentStepEngine.exec_tool_calls]
    rw [acall_function_m_eq h]
    split
    · rfl
    · split
      · rfl
      · split
        · rfl
        · exact ih _

lemma arun_step_eq_run_step {e : OpenAIAgentStepEngine}
    {jsonOf : String → Except PyError ArgDict}
    {llm : LLMChatKwargs → ChatMessage} {fresh_step_id : String}
    {step : TaskStep} {task : AgentTask} {tool_choice : ToolChoice}
    {mem : List ChatMessage}
    (h : ∀ t ∈ e.tools, ∀ d, t.acall d = t.call d ∧
      exceptIsOk (t.call d) = true) :
    e._arun_step jsonOf llm fresh_step_id step task tool_choice mem =
      e._run_step jsonOf llm fresh_step_id step task tool_choice mem := by
  unfold OpenAIAgentStepEngine._arun_step OpenAIAgentStepEngine._run_step
  have hx : ∀ tcs s, e.aexec_tool_calls jsonOf (e.get_tools task.input) tcs s
      = e.exec_tool_calls jsonOf (e.get_tools task.input) tcs s :=
    fun tcs s => aexec_eq_exec h tcs s
  simp only [hx]

lemma get_latest_concat (mem : List ChatMessage) (m : ChatMessage) :
    get_latest_tool_calls (mem ++ [m]) = .ok m.kw_tool_calls := by
  simp [get_latest_tool_calls]

lemma run_step_terminal {e : OpenAIAgentStepEngine}
    {jsonOf : String → Except PyError ArgDict}
    {llm : LLMChatKwargs → ChatMessage} {fresh_step_id : String}
    {step : TaskStep} {task : AgentTask} {tool_choice : ToolChoice}
    {mem : List ChatMessage} {st : StepStateRec}
    (hst : step.step_state = some st)
    (hstop : e._should_continue
      (e.step_reply llm task tool_choice mem).kw_tool_calls
      st.n_function_calls = false) :
    e._run_step jsonOf llm fresh_step_id step task tool_choice mem =
      { mem := mem ++ [e.step_reply llm task tool_choice mem]
        step_state := some st
        result := .ok
          { output :=
              { response :=
                  pyStrOfContent (e.step_reply llm task tool_choice mem).content
                sources := st.sources }
            task_step := step
            is_last := true
            next_steps := [] } } := by
  simp only [OpenAIAgentStepEngine.step_reply] at hstop ⊢
  unfold OpenAIAgentStepEngine._run_step
  simp only [OpenAIAgentStepEngine._process_message, hst, get_latest_concat,
    hstop, Bool.not_false, if_pos]

lemma run_step_continue_err {e : OpenAIAgentStepEngine}
    {jsonOf : String → Except PyError ArgDict}
    {llm : LLMChatKwargs → ChatMessage} {fresh_step_id : String}
    {step : TaskStep} {task : AgentTask} {tool_choice : ToolChoice}
    {mem : List ChatMessage} {st : StepStateRec}
    {tcs : List OpenAIToolCall} {s' : LoopState} {err : PyError}
    (hst : step.step_state = some st)
    (htcs : (e.step_reply llm task tool_choice mem).kw_tool_calls = some tcs)
    (hcont : e._should_continue (some tcs) st.n_function_calls = true)
    (hexec : e.exec_tool_calls jsonOf (e.get_tools task.input) tcs
      { mem := mem ++ [e.step_reply llm task tool_choice mem]
        sources := st.sources
        n_function_calls := st.n_function_calls
        tool_choice := tool_choice } = (s', some err)) :
    e._run_step jsonOf llm fresh_step_id step task tool_choice mem =
      { mem := s'.mem
        step_state := some
          { sources := s'.sources, n_function_calls := s'.n_function_calls }
        result := .error err } := by
  simp only [OpenAIAgentStepEngine.step_reply] at htcs hexec ⊢
  unfold OpenAIAgentStepEngine._run_step
  simp only [OpenAIAgentStepEngine._process_message, hst, get_latest_concat,
    htcs, hcont, Bool.not_true, Bool.false_eq_true, if_false, hexec]

lemma run_step_continue_ok {e : OpenAIAgentStepEngine}
    {jsonOf : String → Except PyError ArgDict}
    {llm : LLMChatKwargs → ChatMessage} {fresh_step_id : String}
    {step : TaskStep} {task : AgentTask} {tool_choice : ToolChoice}
    {mem : List ChatMessage} {st : StepStateRec}
    {tcs : List OpenAIToolCall} {s' : LoopState}
    (hst : step.step_state = some st)
    (htcs : (e.step_reply llm task tool_choice mem).kw_tool_calls = some tcs)
    (hcont : e._should_continue (some tcs) st.n_function_calls = true)
    (hexec : e.exec_tool_calls jsonOf (e.get_tools task.input) tcs
      { mem := mem ++ [e.step_reply llm task tool_choice mem]
        sources := st.sources
        n_function_calls := st.n_function_calls
        tool_choice := tool_choice } = (s', none)) :
    e._run_step jsonOf llm fresh_step_id step task tool_choice mem =
      { mem := s'.mem
        step_state := some
          { sources := s'.sources, n_function_calls := s'.n_function_calls }
        result := .ok
          { output :=
              { response :=
                  pyStrOfContent (e.step_reply llm task tool_choice mem).content
                sources := st.sources }
            task_step :=
              { step with
                step_state := some ⟨s'.sources, s'.n_function_calls⟩ }
            is_last := false
            next_steps :=
              [{ task_id := step.task_id
                 step_id := fresh_step_id
                 input := .response
                   { response :=
                       pyStrOfContent
                         (e.step_reply llm task tool_choice mem).content
                     sources := st.sources }
                 step_state := none }] } } := by
  simp only [OpenAIAgentStepEngine.step_reply] at htcs hexec ⊢
  unfold OpenAIAgentStepEngine._run_step
  simp only [OpenAIAgentStepEngine._process_message, hst, get_latest_concat,
    htcs, hcont, Bool.not_true, Bool.false_eq_true, if_false, hexec]

lemma run_step_nostate {e : OpenAIAgentStepEngine}
    {jsonOf : String → Except PyError ArgDict}
    {llm : LLMChatKwargs → ChatMessage} {fresh_step_id : String}
    {step : TaskStep} {task : AgentTask} {tool_choice : ToolChoice}
    {mem : List ChatMessage}
    (hst : step.step_state = none) :
    e._run_step jsonOf llm fresh_step_id step task tool_choice mem =
      { mem := mem ++ [e.step_reply llm task tool_choice mem]
        step_state := none
        result := .error (.keyError "sources") } := by
  simp only [OpenAIAgentStepEngine.step_reply]
  unfold OpenAIAgentStepEngine._run_step
  simp only [OpenAIAgentStepEngine._process_message, hst]

lemma should_continue_true_elim {e : OpenAIAgentStepEngine}
    {tool_calls : Option (List OpenAIToolCall)} {n : Nat}
    (h : e._should_continue tool_calls n = true) :
    ∃ l, tool_calls = some l ∧ l ≠ [] ∧ n ≤ e.max_function_calls := by
  unfold OpenAIAgentStepEngine._should_continue at h
  split at h
  · cases h
  · split at h
    · cases h
    · next hfalsy =>
      cases tool_calls with
      | none => simp at hfalsy
      | some l =>
        refine ⟨l, rfl, ?_, by omega⟩
        intro hnil
        subst hnil
        simp at hfalsy

/-- Claim C2: the continuation predicate returns true if and only if the
model's latest reply carries at least one tool directive and the
cumulative invocation counter has not exceeded (is not strictly greater
than) the configured maximum; in particular, with a maximum of 1 and a
counter of 1 the predicate still permits continuation. -/
theorem claim2_should_continue_boundary :
    (∀ (e : OpenAIAgentStepEngine)
       (tool_calls : Option (List OpenAIToolCall)) (n : Nat),
       e._should_continue tool_calls n = true ↔
         ((∃ l, tool_calls = some l ∧ l ≠ []) ∧
           n ≤ e.max_function_calls)) ∧
    (∀ (e : OpenAIAgentStepEngine) (tc : OpenAIToolCall),
       e.max_function_calls = 1 → e._should_continue (some [tc]) 1 = true) := by
  constructor
  · intro e tool_calls n
    constructor
    · intro h
      obtain ⟨l, hl, hne, hle⟩ := should_continue_true_elim h
      exact ⟨⟨l, hl, hne⟩, hle⟩
    · rintro ⟨⟨l, hl, hne⟩, hle⟩
      subst hl
      unfold OpenAIAgentStepEngine._should_continue
      have h1 : ¬(n > e.max_function_calls) := by omega
      rw [if_neg h1]
      simp [List.isEmpty_iff, hne]
  · intro e tc hmax
    unfold OpenAIAgentStepEngine._should_continue
    rw [hmax]
    simp

/-- Claim C2 witness: a concrete engine with maximum 1 and a reply holding
one directive at counter 1 still continues. -/
theorem claim2_witness :
    engineMax1._should_continue (some [addCall "c1"]) 1 = true :=
  claim2_should_continue_boundary.2 engineMax1 (addCall "c1") rfl

/-- Claim C5: with a model reply carrying zero tool directives (an absent
or empty tool-call list), _run_step returns a terminal TaskStepOutput with
an empty next_steps list, whatever the current invocation count; and for
every TaskStepOutput the engine produces, next_steps is empty exactly when
the terminal flag is set. -/
theorem claim5_zero_directives_terminal :
    (∀ (e : OpenAIAgentStepEngine)
       (jsonOf : String → Except PyError ArgDict)
       (llm : LLMChatKwargs → ChatMessage) (fresh_step_id : String)
       (step : TaskStep) (task : AgentTask) (tool_choice : ToolChoice)
       (mem : List ChatMessage) (st : StepStateRec),
       step.step_state = some st →
       ((e.step_reply llm task tool_choice mem).kw_tool_calls = none ∨
         (e.step_reply llm task tool_choice mem).kw_tool_calls = some []) →
       ∃ out,
         (e._run_step jsonOf llm fresh_step_id step task tool_choice
           mem).result = .ok out ∧
         out.is_last = true ∧ out.next_steps = []) ∧
    (∀ (e : OpenAIAgentStepEngine)
       (jsonOf : String → Except PyError ArgDict)
       (llm : LLMChatKwargs → ChatMessage) (fresh_step_id : String)
       (step : TaskStep) (task : AgentTask) (tool_choice : ToolChoice)
       (mem : List ChatMessage) (out : TaskStepOutput),
       (e._run_step jsonOf llm fresh_step_id step task tool_choice
         mem).result = .ok out →
       (out.next_steps = [] ↔ out.is_last = true)) := by
  constructor
  · intro e jsonOf llm fresh_step_id step task tool_choice mem st hst hfalsy
    have hstop : e._should_continue
        (e.step_reply llm task tool_choice mem).kw_tool_calls
        st.n_function_calls = false := by
      rcases hfalsy with h | h <;>
        (rw [h]; unfold OpenAIAgentStepEngine._should_continue; split <;> simp)
    rw [run_step_terminal hst hstop]
    exact ⟨_, rfl, rfl, rfl⟩
  · intro e jsonOf llm fresh_step_id step task tool_choice mem out hout
    cases hst : step.step_state with
    | none =>
      rw [run_step_nostate hst] at hout
      cases hout
    | some st =>
      cases hcont : e._should_continue
          (e.step_reply llm task tool_choice mem).kw_tool_calls
          st.n_function_calls with
      | false =>
        rw [run_step_terminal hst hcont] at hout
        simp only [Except.ok.injEq] at hout
        subst hout
        simp
      | true =>
        obtain ⟨tcs, htcs, hne, hle⟩ := should_continue_true_elim hcont
        rw [htcs] at hcont
        rcases hexec : e.exec_tool_calls jsonOf (e.get_tools task.input) tcs
          { mem := mem ++ [e.step_reply llm task tool_choice mem]
            sources := st.sources
            n_function_calls := st.n_function_calls
            tool_choice := tool_choice } with ⟨s', err?⟩
        cases err? with
        | some err =>
          rw [run_step_continue_err hst htcs hcont hexec] at hout
          cases hout
        | none =>
          rw [run_step_continue_ok hst htcs hcont hexec] at hout
          simp only [Except.ok.injEq] at hout
          subst hout
          simp

/-- Claim C5 witness: a concrete step whose counter already reads 99 and a
reply with no directives still yields a terminal output with no follow-up
steps. -/
theorem claim5_witness :
    ∃ out,
      (sampleEngine._run_step sampleJson (llmOf (replyWith none)) "s2"
        { task_id := "t1", step_id := "s1", input := .text "hi"
          step_state := some { sources := [], n_function_calls := 99 } }
        sampleTask (.str "auto") []).result = .ok out ∧
      out.is_last = true ∧ out.next_steps = [] :=
  claim5_zero_directives_terminal.1 sampleEngine sampleJson
    (llmOf (replyWith none)) "s2"
    { task_id := "t1", step_id := "s1", input := .text "hi"
      step_state := some { sources := [], n_function_calls := 99 } }
    sampleTask (.str "auto") [] { sources := [], n_function_calls := 99 }
    rfl (Or.inl rfl)

/-- Claim C6: when the reply carries one directive naming a tool absent
from the resolved tool set, _run_step surfaces the resolution ValueError
to the caller; the conversation log receives only the model reply (no
tool-result message), the sources are unchanged and the counter is
unchanged. -/
theorem claim6_unresolvable_tool :
    ∀ (e : OpenAIAgentStepEngine)
      (jsonOf : String → Except PyError ArgDict)
      (llm : LLMChatKwargs → ChatMessage) (fresh_step_id : String)
      (step : TaskStep) (task : AgentTask) (tool_choice : ToolChoice)
      (mem : List ChatMessage) (st : StepStateRec) (d : OpenAIToolCall)
      (fn : OpenAIFunction) (nm args : String),
      step.step_state = some st →
      (e.step_reply llm task tool_choice mem).kw_tool_calls = some [d] →
      d.is_valid_instance = true →
      d.type = "function" →
      d.function = some fn →
      fn.name = some nm →
      fn.arguments = some args →
      (∀ t ∈ e.tools, t.metadata.name ≠ nm) →
      st.n_function_calls ≤ e.max_function_calls →
      e._run_step jsonOf llm fresh_step_id step task tool_choice mem =
        { mem := mem ++ [e.step_reply llm task tool_choice mem]
          step_state := some st
          result := .error
            (.valueError ("Tool with name " ++ nm ++ " not found")) } := by
  intro e jsonOf llm fresh_step_id step task tool_choice mem st d fn nm args
    hst htcs hvalid htype hfn hnm hargs habs hle
  have hcont : e._should_continue (some [d]) st.n_function_calls = true := by
    unfold OpenAIAgentStepEngine._should_continue
    have h1 : ¬(st.n_function_calls > e.max_function_calls) := by omega
    rw [if_neg h1]
    simp
  have hlookup : get_function_by_name (e.get_tools task.input) nm =
      .error (.valueError ("Tool with name " ++ nm ++ " not found")) := by
    unfold get_function_by_name
    have hfind : (e.get_tools task.input).reverse.find?
        (fun tool => tool.metadata.name == nm) = none := by
      rw [List.find?_eq_none]
      intro t ht
      have ht' : t ∈ e.tools := by
        simpa [OpenAIAgentStepEngine.get_tools] using List.mem_reverse.mp ht
      simpa using habs t ht'
    rw [hfind]
  have hcf : e._call_function jsonOf (e.get_tools task.input) d
      (mem ++ [e.step_reply llm task tool_choice mem]) st.sources =
      .error (.valueError ("Tool with name " ++ nm ++ " not found")) := by
    unfold OpenAIAgentStepEngine._call_function
    simp only [hfn, hnm, hargs, bind, Except.bind, hlookup]
  have hexec : e.exec_tool_calls jsonOf (e.get_tools task.input) [d]
      { mem := mem ++ [e.step_reply llm task tool_choice mem]
        sources := st.sources
        n_function_calls := st.n_function_calls
        tool_choice := tool_choice } =
      ({ mem := mem ++ [e.step_reply llm task tool_choice mem]
         sources := st.sources
         n_function_calls := st.n_function_calls
         tool_choice := tool_choice },
        some (.valueError ("Tool with name " ++ nm ++ " not found"))) := by
    simp only [OpenAIAgentStepEngine.exec_tool_calls, hvalid, htype,
      Bool.not_true, Bool.false_eq_true, if_false]
    simp only [hcf]
    simp [htype]
  rw [run_step_continue_err hst htcs hcont hexec]

/-- Claim C6 witness: the concrete engine with tools add and boom, given a
reply directing the unknown tool mult, raises the resolution error and
appends only the reply. -/
theorem claim6_witness :
    sampleEngine._run_step sampleJson
      (llmOf (replyWith (some [unresolvedCall]))) "s2"
      (sampleEngine.initialize_step sampleTask "s1") sampleTask
      (.str "auto") [] =
      { mem := [] ++ [sampleEngine.step_reply
          (llmOf (replyWith (some [unresolvedCall]))) sampleTask
          (.str "auto") []]
        step_state := some { sources := [], n_function_calls := 0 }
        result := .error
          (.valueError ("Tool with name " ++ "mult" ++ " not found")) } :=
  claim6_unresolvable_tool sampleEngine sampleJson
    (llmOf (replyWith (some [unresolvedCall]))) "s2"
    (sampleEngine.initialize_step sampleTask "s1") sampleTask
    (.str "auto") [] { sources := [], n_function_calls := 0 }
    unresolvedCall { name := some "mult", arguments := some "\x7b\x7d" }
    "mult" "\x7b\x7d" rfl rfl rfl rfl rfl rfl rfl
    (by
      intro t ht
      simp only [sampleEngine, List.mem_cons, List.mem_singleton,
        List.not_mem_nil] at ht
      rcases ht with h | h | h
      · subst h; simp [addTool]
      · subst h; simp [boomTool]
      · cases h)
    (by simp)

/-- Claim C7: every _run_step call only appends to the conversation log:
the prior log is an unchanged prefix of the new log (so its length never
decreases), the model's reply is appended before any tool-result
message, and the tool-result messages that follow correspond, position by
position and by correlation id, to the reply's directives in the order
the model listed them. -/
theorem claim7_log_append_only :
    ∀ (e : OpenAIAgentStepEngine)
      (jsonOf : String → Except PyError ArgDict)
      (llm : LLMChatKwargs → ChatMessage) (fresh_step_id : String)
      (step : TaskStep) (task : AgentTask) (tool_choice : ToolChoice)
      (mem : List ChatMessage),
      mem.length ≤
        (e._run_step jsonOf llm fresh_step_id step task tool_choice
          mem).mem.length ∧
      ∃ tms : List ChatMessage,
        (e._run_step jsonOf llm fresh_step_id step task tool_choice
          mem).mem =
          mem ++ [e.step_reply llm task tool_choice mem] ++ tms ∧
        tms.length ≤
          ((e.step_reply llm task tool_choice mem).kw_tool_calls.getD
            []).length ∧
        ∀ i m, tms.get? i = some m →
          m.role = .tool ∧
            ∃ d, ((e.step_reply llm task tool_choice mem).kw_tool_calls.getD
              []).get? i = some d ∧ m.kw_tool_call_id = d.id := by
  intro e jsonOf llm fresh_step_id step task tool_choice mem
  have main :
      ∃ tms : List ChatMessage,
        (e._run_step jsonOf llm fresh_step_id step task tool_choice
          mem).mem =
          mem ++ [e.step_reply llm task tool_choice mem] ++ tms ∧
        tms.length ≤
          ((e.step_reply llm task tool_choice mem).kw_tool_calls.getD
            []).length ∧
        ∀ i m, tms.get? i = some m →
          m.role = .tool ∧
            ∃ d, ((e.step_reply llm task tool_choice mem).kw_tool_calls.getD
              []).get? i = some d ∧ m.kw_tool_call_id = d.id := by
    cases hst : step.step_state with
    | none =>
      rw [run_step_nostate hst]
      exact ⟨[], by simp, by simp, fun i m him => by simp at him⟩
    | some st =>
      cases hcont : e._should_continue
          (e.step_reply llm task tool_choice mem).kw_tool_calls
          st.n_function_calls with
      | false =>
        rw [run_step_terminal hst hcont]
        exact ⟨[], by simp, by simp, fun i m him => by simp at him⟩
      | true =>
        obtain ⟨tcs, htcs, hne, hle⟩ := should_continue_true_elim hcont
        rw [htcs] at hcont
        obtain ⟨tms, hmem, hlen, hidx⟩ := exec_mem_shape e jsonOf
          (e.get_tools task.input) tcs
          { mem := mem ++ [e.step_reply llm task tool_choice mem]
            sources := st.sources
            n_function_calls := st.n_function_calls
            tool_choice := tool_choice }
        rcases hexec : e.exec_tool_calls jsonOf (e.get_tools task.input) tcs
          { mem := mem ++ [e.step_reply llm task tool_choice mem]
            sources := st.sources
            n_function_calls := st.n_function_calls
            tool_choice := tool_choice } with ⟨s', err?⟩
        rw [hexec] at hmem
        have hs'mem : s'.mem =
            mem ++ [e.step_reply llm task tool_choice mem] ++ tms := hmem
        cases err? with
        | some err =>
          rw [run_step_continue_err hst htcs hcont hexec]
          exact ⟨tms, hs'mem, by simpa [htcs] using hlen,
            fun i m him => by simpa [htcs] using hidx i m him⟩
        | none =>
          rw [run_step_continue_ok hst htcs hcont hexec]
          exact ⟨tms, hs'mem, by simpa [htcs] using hlen,
            fun i m him => by simpa [htcs] using hidx i m him⟩
  obtain ⟨tms, hmem, hlen, hidx⟩ := main
  refine ⟨?_, tms, hmem, hlen, hidx⟩
  rw [hmem]
  simp

/-- Claim C8: a pinned tool name is translated by resolve_tool_choice into
a forced-selection directive, which enters the model-call payload of the
call it is passed to; after the first completed tool invocation the
directive loop resets the local selection policy to auto (and it stays
auto for the rest of the loop); and the public run_step invoked without a
tool_choice argument runs the model call under the auto policy, so a pin
applies only to the call it was passed to. -/
theorem claim8_pinned_choice_resets :
    (∀ nm : String, nm ≠ "auto" → nm ≠ "none" →
      resolve_tool_choice (.str nm) = .forced nm) ∧
    (∀ (e : OpenAIAgentStepEngine) (mem : List ChatMessage)
       (openai_tools : List ToolMetadata) (tool_choice : ToolChoice),
       openai_tools ≠ [] →
       (e._get_llm_chat_kwargs mem openai_tools tool_choice).tool_choice =
         some (resolve_tool_choice tool_choice)) ∧
    (∀ (e : OpenAIAgentStepEngine)
       (jsonOf : String → Except PyError ArgDict) (tools : List BaseTool)
       (tcs : List OpenAIToolCall) (s s' : LoopState),
       s.tool_choice.is_auto_or_none = false → tcs ≠ [] →
       e.exec_tool_calls jsonOf tools tcs s = (s', none) →
       s'.tool_choice = .str "auto") ∧
    (∀ (e : OpenAIAgentStepEngine)
       (jsonOf : String → Except PyError ArgDict)
       (llm : LLMChatKwargs → ChatMessage) (fresh_step_id : String)
       (step : TaskStep) (task : AgentTask) (mem : List ChatMessage),
       e.run_step jsonOf llm fresh_step_id step task none mem =
         e._run_step jsonOf llm fresh_step_id step task (.str "auto") mem) := by
  refine ⟨?_, ?_, ?_, ?_⟩
  · intro nm h1 h2
    have hcond : (nm != "none" && nm != "auto") = true := by
      simp [h1, h2]
    simp only [resolve_tool_choice, hcond, if_true]
  · intro e mem openai_tools tool_choice hne
    unfold OpenAIAgentStepEngine._get_llm_chat_kwargs
    rw [if_neg (by simpa [List.isEmpty_iff] using hne)]
  · intro e jsonOf tools tcs s s' hpin hne hexec
    exact exec_pinned_resets e jsonOf tools tcs s s' hpin hne hexec
  · intro e jsonOf llm fresh_step_id step task mem
    rfl

/-- Claim C8 witness: pinning add produces the forced-selection directive,
and a concrete one-directive loop started under the pin add finishes with
the policy reset to auto. -/
theorem claim8_witness :
    resolve_tool_choice (.str "add") = .forced "add" ∧
    ({ mem := [{ role := .tool
                 content := some "4"
                 kw_tool_calls := none
                 kw_name := some "add"
                 kw_tool_call_id := some "c1" }]
       sources := [{ content := "4", tool_name := "add", raw_input := []
                     raw_output := .val "4" }]
       n_function_calls := 1
       tool_choice := ToolChoice.str "auto" } : LoopState).tool_choice =
      .str "auto" :=
  ⟨claim8_pinned_choice_resets.1 "add" (by decide) (by decide),
   claim8_pinned_choice_resets.2.2.1 engineMax1 sampleJson engineMax1.tools
     [addCall "c1"]
     { mem := [], sources := [], n_function_calls := 0
       tool_choice := .str "add" }
     { mem := [{ role := .tool
                 content := some "4"
                 kw_tool_calls := none
                 kw_name := some "add"
                 kw_tool_call_id := some "c1" }]
       sources := [{ content := "4", tool_name := "add", raw_input := []
                     raw_output := .val "4" }]
       n_function_calls := 1
       tool_choice := ToolChoice.str "auto" }
     rfl (by decide) rfl⟩

lemma call_tool_absorbs (tool : BaseTool) (input_dict : ArgDict)
    (error_message : Option String) (err : PyError)
    (hcall : tool.call input_dict = .error err) :
    call_tool_with_error_handling tool input_dict error_message false =
      .ok { content := error_message.getD ("Error: " ++ err.toStr)
            tool_name := tool.metadata.name
            raw_input := input_dict
            raw_output := .exc err } := by
  unfold call_tool_with_error_handling
  simp only [hcall, Bool.false_eq_true, if_false]

lemma call_tool_raises (tool : BaseTool) (input_dict : ArgDict)
    (error_message : Option String) (err : PyError)
    (hcall : tool.call input_dict = .error err) :
    call_tool_with_error_handling tool input_dict error_message true =
      .error err := by
  unfold call_tool_with_error_handling
  simp only [hcall, if_true]

lemma acall_function_propagates
    {jsonOf : String → Except PyError ArgDict} {tools : List BaseTool}
    {tc : OpenAIToolCall} {id_ nm args : String} {fn : OpenAIFunction}
    {tool : BaseTool} {d : ArgDict} {err : PyError}
    (hid : tc.id = some id_) (hfn : tc.function = some fn)
    (hnm : fn.name = some nm) (hargs : fn.arguments = some args)
    (hlook : get_function_by_name tools nm = .ok tool)
    (hjson : jsonOf args = .ok d)
    (hacall : tool.acall d = .error err) :
    acall_function jsonOf tools tc = .error err := by
  unfold acall_function
  simp only [hid, hfn, hnm, hargs, bind, Except.bind, hlook, hjson,
    adapt_to_async_tool, hacall]

lemma exec_absorbs_tool_error (e : OpenAIAgentStepEngine)
    {jsonOf : String → Except PyError ArgDict} {tools : List BaseTool}
    {tc : OpenAIToolCall} (rest : List OpenAIToolCall) (s : LoopState)
    {id_ nm args : String} {fn : OpenAIFunction} {tool : BaseTool}
    {d : ArgDict} {err : PyError}
    (hvalid : tc.is_valid_instance = true) (htype : tc.type = "function")
    (hid : tc.id = some id_) (hfn : tc.function = some fn)
    (hnm : fn.name = some nm) (hargs : fn.arguments = some args)
    (hlook : get_function_by_name tools nm = .ok tool)
    (hjson : jsonOf args = .ok d)
    (hcall : tool.call d = .error err) :
    e.exec_tool_calls jsonOf tools (tc :: rest) s =
      e.exec_tool_calls jsonOf tools rest
        { mem := s.mem ++
            [{ role := .tool
               content := some ("Error: " ++ err.toStr)
               kw_name := some nm
               kw_tool_call_id := some id_ }]
          sources := s.sources ++
            [{ content := "Error: " ++ err.toStr
               tool_name := tool.metadata.name
               raw_input := d
               raw_output := .exc err }]
          n_function_calls := s.n_function_calls + 1
          tool_choice :=
            if !s.tool_choice.is_auto_or_none then ToolChoice.str "auto"
            else s.tool_choice } := by
  have hcf : call_function jsonOf tools tc =
      .ok ({ role := .tool
             content := some ("Error: " ++ err.toStr)
             kw_name := some nm
             kw_tool_call_id := some id_ },
           { content := "Error: " ++ err.toStr
             tool_name := tool.metadata.name
             raw_input := d
             raw_output := .exc err }) := by
    unfold call_function
    simp only [hid, hfn, hnm, hargs, bind, Except.bind, hlook, hjson,
      call_tool_absorbs tool d none err hcall, pure, Except.pure,
      ToolOutput.str, Option.getD]
  have hm : e._call_function jsonOf tools tc s.mem s.sources =
      .ok (s.mem ++
            [{ role := .tool
               content := some ("Error: " ++ err.toStr)
               kw_name := some nm
               kw_tool_call_id := some id_ }],
           s.sources ++
            [{ content := "Error: " ++ err.toStr
               tool_name := tool.metadata.name
               raw_input := d
               raw_output := .exc err }]) := by
    unfold OpenAIAgentStepEngine._call_function
    simp only [hfn, hnm, hargs, bind, Except.bind, hlook, hcf, pure,
      Except.pure]
  simp only [OpenAIAgentStepEngine.exec_tool_calls, hvalid, htype,
    Bool.not_true, Bool.false_eq_true, if_false, hm]
  simp [htype]

/-- Claim C3 counterexample: the boom tool raises during execution; the
non-blocking invocation form re-raises the exception instead of
converting it into a ToolOutput, while the blocking form succeeds. -/
theorem claim3_counterexample :
    acall_function sampleJson [boomTool] boomCall =
      .error (.toolError "boom failed") ∧
    exceptIsOk (call_function sampleJson [boomTool] boomCall) = true :=
  ⟨rfl, rfl⟩

/-- Claim C3 (amended): in the blocking invocation form, an exception
raised by the tool's own execution is caught and converted into a
ToolOutput whose content is the synthesized error string and whose
raw-output field carries the captured error, it is re-raised only when
the caller requests propagation, and the directive loop continues past
the failed call; in the non-blocking form the tool's exception propagates
out of the invocation. -/
theorem claim3_tool_error_handling :
    (∀ (tool : BaseTool) (input_dict : ArgDict)
       (error_message : Option String) (err : PyError),
       tool.call input_dict = .error err →
       call_tool_with_error_handling tool input_dict error_message false =
         .ok { content := error_message.getD ("Error: " ++ err.toStr)
               tool_name := tool.metadata.name
               raw_input := input_dict
               raw_output := .exc err }) ∧
    (∀ (tool : BaseTool) (input_dict : ArgDict)
       (error_message : Option String) (err : PyError),
       tool.call input_dict = .error err →
       call_tool_with_error_handling tool input_dict error_message true =
         .error err) ∧
    (∀ (jsonOf : String → Except PyError ArgDict) (tools : List BaseTool)
       (tc : OpenAIToolCall) (id_ nm args : String) (fn : OpenAIFunction)
       (tool : BaseTool) (d : ArgDict) (err : PyError),
       tc.id = some id_ → tc.function = some fn → fn.name = some nm →
       fn.arguments = some args →
       get_function_by_name tools nm = .ok tool → jsonOf args = .ok d →
       tool.acall d = .error err →
       acall_function jsonOf tools tc = .error err) ∧
    (∀ (e : OpenAIAgentStepEngine)
       (jsonOf : String → Except PyError ArgDict) (tools : List BaseTool)
       (tc : OpenAIToolCall) (rest : List OpenAIToolCall) (s : LoopState)
       (id_ nm args : String) (fn : OpenAIFunction) (tool : BaseTool)
       (d : ArgDict) (err : PyError),
       tc.is_valid_instance = true → tc.type = "function" →
       tc.id = some id_ → tc.function = some fn → fn.name = some nm →
       fn.arguments = some args →
       get_function_by_name tools nm = .ok tool → jsonOf args = .ok d →
       tool.call d = .error err →
       e.exec_tool_calls jsonOf tools (tc :: rest) s =
         e.exec_tool_calls jsonOf tools rest
           { mem := s.mem ++
               [{ role := .tool
                  content := some ("Error: " ++ err.toStr)
                  kw_name := some nm
                  kw_tool_call_id := some id_ }]
             sources := s.sources ++
               [{ content := "Error: " ++ err.toStr
                  tool_name := tool.metadata.name
                  raw_input := d
                  raw_output := .exc err }]
             n_function_calls := s.n_function_calls + 1
             tool_choice :=
               if !s.tool_choice.is_auto_or_none then ToolChoice.str "auto"
               else s.tool_choice }) := by
  refine ⟨?_, ?_, ?_, ?_⟩
  · intro tool input_dict error_message err hcall
    exact call_tool_absorbs tool input_dict error_message err hcall
  · intro tool input_dict error_message err hcall
    exact call_tool_raises tool input_dict error_message err hcall
  · intro jsonOf tools tc id_ nm args fn tool d err hid hfn hnm hargs hlook
      hjson hacall
    exact acall_function_propagates hid hfn hnm hargs hlook hjson hacall
  · intro e jsonOf tools tc rest s id_ nm args fn tool d err hvalid htype
      hid hfn hnm hargs hlook hjson hcall
    exact exec_absorbs_tool_error e rest s hvalid htype hid hfn hnm hargs
      hlook hjson hcall

/-- Claim C3 witness: the boom tool's raise is absorbed by the blocking
invocation into an error ToolOutput, and propagates out of the
non-blocking invocation. -/
theorem claim3_witness :
    call_tool_with_error_handling boomTool [] none false =
      .ok { content := "Error: boom failed"
            tool_name := "boom"
            raw_input := []
            raw_output := .exc (.toolError "boom failed") } ∧
    acall_function sampleJson [boomTool] boomCall =
      .error (.toolError "boom failed") :=
  ⟨claim3_tool_error_handling.1 boomTool [] none
      (.toolError "boom failed") rfl,
   claim3_tool_error_handling.2.2.1 sampleJson [boomTool] boomCall "c2"
     "boom" "\x7b\x7d" { name := some "boom", arguments := some "\x7b\x7d" }
     boomTool [] (.toolError "boom failed") rfl rfl rfl rfl rfl rfl rfl⟩

/-- Claim C4 counterexample: with the boom tool raising during execution,
the blocking step appends the error tool message and succeeds while the
non-blocking step propagates the exception after appending only the
reply, so the two entry points do not yield identical results. -/
theorem claim4_counterexample :
    (sampleEngine._run_step sampleJson (llmOf (replyWith (some [boomCall])))
      "s2" (sampleEngine.initialize_step sampleTask "s1") sampleTask
      (.str "auto") []).mem.length = 2 ∧
    (sampleEngine._arun_step sampleJson (llmOf (replyWith (some [boomCall])))
      "s2" (sampleEngine.initialize_step sampleTask "s1") sampleTask
      (.str "auto") []).mem.length = 1 ∧
    exceptIsOk
      (sampleEngine._run_step sampleJson
        (llmOf (replyWith (some [boomCall]))) "s2"
        (sampleEngine.initialize_step sampleTask "s1") sampleTask
        (.str "auto") []).result = true ∧
    exceptIsOk
      (sampleEngine._arun_step sampleJson
        (llmOf (replyWith (some [boomCall]))) "s2"
        (sampleEngine.initialize_step sampleTask "s1") sampleTask
        (.str "auto") []).result = false :=
  ⟨rfl, rfl, rfl, rfl⟩

/-- Claim C4 (amended): the blocking and non-blocking step entry points
yield identical results — same terminal flag, next steps, counter and
conversation-log state — whenever every configured tool's non-blocking
execution agrees with its blocking execution and no tool raises; when an
invoked tool raises, they diverge: the blocking path absorbs the error
into a ToolOutput and continues while the non-blocking path propagates
the exception. -/
theorem claim4_blocking_async_equiv :
    ∀ (e : OpenAIAgentStepEngine)
      (jsonOf : String → Except PyError ArgDict)
      (llm : LLMChatKwargs → ChatMessage) (fresh_step_id : String)
      (step : TaskStep) (task : AgentTask) (tool_choice : ToolChoice)
      (tool_choice_kwarg : Option ToolChoice) (mem : List ChatMessage),
      (∀ t ∈ e.tools, ∀ d, t.acall d = t.call d ∧
        exceptIsOk (t.call d) = true) →
      e._arun_step jsonOf llm fresh_step_id step task tool_choice mem =
        e._run_step jsonOf llm fresh_step_id step task tool_choice mem ∧
      e.arun_step jsonOf llm fresh_step_id step task tool_choice_kwarg mem =
        e.run_step jsonOf llm fresh_step_id step task tool_choice_kwarg
          mem := by
  intro e jsonOf llm fresh_step_id step task tool_choice tool_choice_kwarg
    mem h
  exact ⟨arun_step_eq_run_step h, arun_step_eq_run_step h⟩

/-- Claim C4 witness: with the never-raising add tool, the blocking and
non-blocking steps return the same result on a concrete run. -/
theorem claim4_witness :
    engineMax1._arun_step sampleJson (llmOf (replyWith (some [addCall "c1"])))
      "s2" (engineMax1.initialize_step sampleTask "s1") sampleTask
      (.str "auto") [] =
    engineMax1._run_step sampleJson (llmOf (replyWith (some [addCall "c1"])))
      "s2" (engineMax1.initialize_step sampleTask "s1") sampleTask
      (.str "auto") [] :=
  (claim4_blocking_async_equiv engineMax1 sampleJson
    (llmOf (replyWith (some [addCall "c1"]))) "s2"
    (engineMax1.initialize_step sampleTask "s1") sampleTask
    (.str "auto") none []
    (by
      intro t ht d
      simp only [engineMax1, List.mem_singleton] at ht
      subst ht
      exact ⟨rfl, rfl⟩)).1

/-- Claim C9 counterexample: the blocking streaming entry point raises
NotImplementedError on a concrete step and task instead of returning a
TaskStepOutput with a streaming payload. -/
theorem claim9_counterexample :
    sampleEngine.stream_step
      (sampleEngine.initialize_step sampleTask "s1") sampleTask =
      .error .notImplementedError ∧
    exceptIsOk (sampleEngine.stream_step
      (sampleEngine.initialize_step sampleTask "s1") sampleTask) = false :=
  ⟨rfl, rfl⟩

/-- Claim C9 (amended): both public streaming entry points are declared
but unimplemented: stream_step and astream_step raise
NotImplementedError on every step and task. -/
theorem claim9_streaming_unimplemented :
    ∀ (e : OpenAIAgentStepEngine) (step : TaskStep) (task : AgentTask),
      e.stream_step step task = .error .notImplementedError ∧
      e.astream_step step task = .error .notImplementedError := by
  intro e step task
  exact ⟨rfl, rfl⟩

/-- Claim C10: when the directive at position k of the reply fails the
per-directive validation (a non-function kind or an invalid directive
object), the error _run_step raises does not roll back the first k-1
directives: the log keeps the reply and their k-1 tool messages, the
sources keep their k-1 outputs, and the counter keeps the k-1
increments. -/
theorem claim10_partial_effects_persist :
    ∀ (e : OpenAIAgentStepEngine)
      (jsonOf : String → Except PyError ArgDict)
      (llm : LLMChatKwargs → ChatMessage) (fresh_step_id : String)
      (step : TaskStep) (task : AgentTask) (tool_choice : ToolChoice)
      (mem : List ChatMessage) (st : StepStateRec)
      (pre rest : List OpenAIToolCall) (bad : OpenAIToolCall)
      (s₁ : LoopState),
      step.step_state = some st →
      (e.step_reply llm task tool_choice mem).kw_tool_calls =
        some (pre ++ bad :: rest) →
      st.n_function_calls ≤ e.max_function_calls →
      e.exec_tool_calls jsonOf (e.get_tools task.input) pre
        { mem := mem ++ [e.step_reply llm task tool_choice mem]
          sources := st.sources
          n_function_calls := st.n_function_calls
          tool_choice := tool_choice } = (s₁, none) →
      (bad.is_valid_instance = false ∨ bad.type ≠ "function") →
      e._run_step jsonOf llm fresh_step_id step task tool_choice mem =
        { mem := s₁.mem
          step_state := some
            { sources := s₁.sources
              n_function_calls := s₁.n_function_calls }
          result := .error
            (if bad.is_valid_instance = false then
              .valueError "Invalid tool_call object"
            else .valueError "Invalid tool type. Unsupported by OpenAI") } ∧
      s₁.n_function_calls = st.n_function_calls + pre.length ∧
      s₁.sources.length = st.sources.length + pre.length ∧
      s₁.mem.length = mem.length + 1 + pre.length := by
  intro e jsonOf llm fresh_step_id step task tool_choice mem st pre rest bad
    s₁ hst htcs hle hpre hbad
  have hcont : e._should_continue (some (pre ++ bad :: rest))
      st.n_function_calls = true := by
    unfold OpenAIAgentStepEngine._should_continue
    rw [if_neg (by omega)]
    simp
  have hbadexec : e.exec_tool_calls jsonOf (e.get_tools task.input)
      (bad :: rest) s₁ =
      (s₁, some
        (if bad.is_valid_instance = false then
          PyError.valueError "Invalid tool_call object"
        else PyError.valueError "Invalid tool type. Unsupported by OpenAI")) := by
    by_cases hv : bad.is_valid_instance = false
    · simp only [OpenAIAgentStepEngine.exec_tool_calls, hv, Bool.not_false,
        if_true, if_pos]
    · have hv' : bad.is_valid_instance = true := by
        cases hb : bad.is_valid_instance
        · exact absurd hb hv
        · rfl
      have ht : bad.type ≠ "function" := by
        rcases hbad with h | h
        · exact absurd h hv
        · exact h
      simp only [OpenAIAgentStepEngine.exec_tool_calls, hv', Bool.not_true,
        Bool.false_eq_true, if_false, if_neg hv]
      have htb : (bad.type != "function") = true := by
        simpa using ht
      rw [htb]
      simp
  have hexec : e.exec_tool_calls jsonOf (e.get_tools task.input)
      (pre ++ bad :: rest)
      { mem := mem ++ [e.step_reply llm task tool_choice mem]
        sources := st.sources
        n_function_calls := st.n_function_calls
        tool_choice := tool_choice } =
      (s₁, some
        (if bad.is_valid_instance = false then
          PyError.valueError "Invalid tool_call object"
        else PyError.valueError "Invalid tool type. Unsupported by OpenAI")) := by
    rw [exec_append e jsonOf (e.get_tools task.input) pre (bad :: rest) _ _
      hpre]
    exact hbadexec
  obtain ⟨hn, hs, hm⟩ := exec_ok_counts e jsonOf (e.get_tools task.input)
    pre _ _ hpre
  refine ⟨run_step_continue_err hst htcs hcont hexec, by simpa using hn,
    by simpa using hs, ?_⟩
  rw [hm]
  simp

/-- Claim C10 witness: with a reply directing add then a directive of kind
retrieval, the step raises the kind-validation error while keeping the
add call's tool message, source entry and counter increment. -/
theorem claim10_witness :
    sampleEngine._run_step sampleJson
      (llmOf (replyWith (some [addCall "c1", badKindCall]))) "s2"
      (sampleEngine.initialize_step sampleTask "s1") sampleTask
      (.str "auto") [] =
      { mem := [replyWith (some [addCall "c1", badKindCall]),
          { role := .tool
            content := some "4"
            kw_name := some "add"
            kw_tool_call_id := some "c1" }]
        step_state := some
          { sources := [{ content := "4", tool_name := "add"
                          raw_input := [], raw_output := .val "4" }]
            n_function_calls := 1 }
        result := .error
          (.valueError "Invalid tool type. Unsupported by OpenAI") } ∧
    (1 : Nat) = 0 + [addCall "c1"].length ∧
    (1 : Nat) = 0 + [addCall "c1"].length ∧
    (2 : Nat) = 0 + 1 + [addCall "c1"].length := by
  have happ := claim10_partial_effects_persist sampleEngine sampleJson
    (llmOf (replyWith (some [addCall "c1", badKindCall]))) "s2"
    (sampleEngine.initialize_step sampleTask "s1") sampleTask
    (.str "auto") [] { sources := [], n_function_calls := 0 }
    [addCall "c1"] [] badKindCall
    { mem := [replyWith (some [addCall "c1", badKindCall]),
        { role := .tool
          content := some "4"
          kw_name := some "add"
          kw_tool_call_id := some "c1" }]
      sources := [{ content := "4", tool_name := "add"
                    raw_input := [], raw_output := .val "4" }]
      n_function_calls := 1
      tool_choice := .str "auto" }
    rfl rfl (by decide) rfl (Or.inr (by decide))
  exact happ

/-- Claim C1 counterexample: with the configured maximum set to 1, a
single model reply carrying two directives makes the step execute both
invocations — the counter reaches 2 and two tool outputs are recorded, so
more than the configured maximum of tool invocations actually execute
within the task's lifetime, and the step is not terminal. -/
theorem claim1_counterexample :
    engineMax1.max_function_calls = 1 ∧
    ((engineMax1._run_step sampleJson
      (llmOf (replyWith (some [addCall "c1", addCall "c3"]))) "s2"
      (engineMax1.initialize_step sampleTask "s1") sampleTask
      (.str "auto") []).step_state.map
        (fun st => st.n_function_calls)) = some 2 ∧
    ((engineMax1._run_step sampleJson
      (llmOf (replyWith (some [addCall "c1", addCall "c3"]))) "s2"
      (engineMax1.initialize_step sampleTask "s1") sampleTask
      (.str "auto") []).step_state.map
        (fun st => st.sources.length)) = some 2 ∧
    exceptIsOk (engineMax1._run_step sampleJson
      (llmOf (replyWith (some [addCall "c1", addCall "c3"]))) "s2"
      (engineMax1.initialize_step sampleTask "s1") sampleTask
      (.str "auto") []).result = true :=
  ⟨rfl, rfl, rfl, rfl⟩

/-- Claim C1 (amended): within one _run_step call the invocation counter
is monotonically non-decreasing; a step whose counter already exceeds the
configured maximum executes no directive and returns a terminal output
with its state unchanged; but the continuation check happens once per
model turn, so every directive of an admitted reply executes even past
the maximum, and the follow-up TaskStep is constructed without
step_state, so the counter value does not propagate to later steps of the
task. -/
theorem claim1_invocation_counter :
    ∀ (e : OpenAIAgentStepEngine)
      (jsonOf : String → Except PyError ArgDict)
      (llm : LLMChatKwargs → ChatMessage) (fresh_step_id : String)
      (step : TaskStep) (task : AgentTask) (tool_choice : ToolChoice)
      (mem : List ChatMessage) (st : StepStateRec),
      step.step_state = some st →
      (∀ st2, (e._run_step jsonOf llm fresh_step_id step task tool_choice
          mem).step_state = some st2 →
        st.n_function_calls ≤ st2.n_function_calls) ∧
      (st.n_function_calls > e.max_function_calls →
        e._run_step jsonOf llm fresh_step_id step task tool_choice mem =
          { mem := mem ++ [e.step_reply llm task tool_choice mem]
            step_state := some st
            result := .ok
              { output :=
                  { response := pyStrOfContent
                      (e.step_reply llm task tool_choice mem).content
                    sources := st.sources }
                task_step := step
                is_last := true
                next_steps := [] } }) ∧
      (∀ out, (e._run_step jsonOf llm fresh_step_id step task tool_choice
          mem).result = .ok out →
        ∀ ns ∈ out.next_steps, ns.step_state = none) := by
  intro e jsonOf llm fresh_step_id step task tool_choice mem st hst
  refine ⟨?_, ?_, ?_⟩
  · intro st2 hst2
    cases hcont : e._should_continue
        (e.step_reply llm task tool_choice mem).kw_tool_calls
        st.n_function_calls with
    | false =>
      rw [run_step_terminal hst hcont] at hst2
      simp only [Option.some.injEq] at hst2
      subst hst2
      exact le_refl _
    | true =>
      obtain ⟨tcs, htcs, hne, hle⟩ := should_continue_true_elim hcont
      rw [htcs] at hcont
      rcases hexec : e.exec_tool_calls jsonOf (e.get_tools task.input) tcs
        { mem := mem ++ [e.step_reply llm task tool_choice mem]
          sources := st.sources
          n_function_calls := st.n_function_calls
          tool_choice := tool_choice } with ⟨s', err?⟩
      have hmono := exec_n_mono e jsonOf (e.get_tools task.input) tcs
        { mem := mem ++ [e.step_reply llm task tool_choice mem]
          sources := st.sources
          n_function_calls := st.n_function_calls
          tool_choice := tool_choice }
      rw [hexec] at hmono
      cases err? with
      | some err =>
        rw [run_step_continue_err hst htcs hcont hexec] at hst2
        simp only [Option.some.injEq] at hst2
        subst hst2
        exact hmono
      | none =>
        rw [run_step_continue_ok hst htcs hcont hexec] at hst2
        simp only [Option.some.injEq] at hst2
        subst hst2
        exact hmono
  · intro hgt
    have hstop : e._should_continue
        (e.step_reply llm task tool_choice mem).kw_tool_calls
        st.n_function_calls = false := by
      unfold OpenAIAgentStepEngine._should_continue
      rw [if_pos hgt]
    exact run_step_terminal hst hstop
  · intro out hout ns hns
    cases hcont : e._should_continue
        (e.step_reply llm task tool_choice mem).kw_tool_calls
        st.n_function_calls with
    | false =>
      rw [run_step_terminal hst hcont] at hout
      simp only [Except.ok.injEq] at hout
      subst hout
      simp at hns
    | true =>
      obtain ⟨tcs, htcs, hne, hle⟩ := should_continue_true_elim hcont
      rw [htcs] at hcont
      rcases hexec : e.exec_tool_calls jsonOf (e.get_tools task.input) tcs
        { mem := mem ++ [e.step_reply llm task tool_choice mem]
          sources := st.sources
          n_function_calls := st.n_function_calls
          tool_choice := tool_choice } with ⟨s', err?⟩
      cases err? with
      | some err =>
        rw [run_step_continue_err hst htcs hcont hexec] at hout
        cases hout
      | none =>
        rw [run_step_continue_ok hst htcs hcont hexec] at hout
        simp only [Except.ok.injEq] at hout
        subst hout
        simp only [List.mem_singleton] at hns
        subst hns
        rfl

/-- Claim C1 witness: a step whose counter already reads 5 under a maximum
of 1 executes nothing and terminates even though the reply still carries
a directive. -/
theorem claim1_witness :
    (5 : Nat) > engineMax1.max_function_calls ∧
    engineMax1._run_step sampleJson (llmOf (replyWith (some [addCall "c1"])))
      "s2"
      { task_id := "t1", step_id := "s1", input := .text "hi"
        step_state := some { sources := [], n_function_calls := 5 } }
      sampleTask (.str "auto") [] =
      { mem := [] ++ [engineMax1.step_reply
          (llmOf (replyWith (some [addCall "c1"]))) sampleTask
          (.str "auto") []]
        step_state := some { sources := [], n_function_calls := 5 }
        result := .ok
          { output :=
              { response := pyStrOfContent
                  (engineMax1.step_reply
                    (llmOf (replyWith (some [addCall "c1"]))) sampleTask
                    (.str "auto") []).content
                sources := [] }
            task_step :=
              { task_id := "t1", step_id := "s1", input := .text "hi"
                step_state := some { sources := [], n_function_calls := 5 } }
            is_last := true
            next_steps := [] } } :=
  ⟨by decide,
   (claim1_invocation_counter engineMax1 sampleJson
     (llmOf (replyWith (some [addCall "c1"]))) "s2"
     { task_id := "t1", step_id := "s1", input := .text "hi"
       step_state := some { sources := [], n_function_calls := 5 } }
     sampleTask (.str "auto") [] { sources := [], n_function_calls := 5 }
     rfl).2.1 (by decide)⟩
